import Mathlib

/-!
Verification of the TastyAI conversational meal-recommendation core.

This file shallowly embeds the intent-classification, recipe-reference
resolution, recipe-selection and conversation-routing logic of the source
(`src/agents/*.py`, `src/mcp/graph.py`) as executable Lean definitions, and
proves or refutes the specified properties. External inference services
(OpenAI chat completions, Pinecone retrieval) are modelled as oracle inputs:
an `Option`-valued parameter is `none` exactly when the Python call raises
(network or JSON-parse failure), and carries the parsed payload otherwise.
Python dicts with possibly-missing keys are modelled as structures with
`Option` fields (`none` = key absent), so `d.get(k, default)` becomes
`field.getD default`.
-/

namespace TastyAI

/-- One chat message, mirroring the `{"role": ..., "content": ...}` dicts
(and the pydantic `Message` model) used throughout the source. -/
structure Msg where
  role : String
  content : String
deriving DecidableEq, Repr

/-- Python `str.lower()` (character-wise; the titles and messages involved
are ASCII, where this coincides with `Char.toLower`). -/
def pyLower (s : String) : String := String.mk (s.data.map Char.toLower)

/-- Python `str.strip()`: drop leading and trailing whitespace. -/
def pyTrim (s : String) : String :=
  String.mk (((s.data.dropWhile Char.isWhitespace).reverse.dropWhile
      Char.isWhitespace).reverse)

/-- Helper for `pySplit`: split a character list at whitespace runs,
discarding empty pieces; `acc` holds the current word reversed. -/
def wsSplitAux : List Char → List Char → List (List Char)
  | acc, [] => if acc = [] then [] else [acc.reverse]
  | acc, c :: cs =>
    if c.isWhitespace then
      if acc = [] then wsSplitAux [] cs else acc.reverse :: wsSplitAux [] cs
    else wsSplitAux (c :: acc) cs

/-- Python `str.split()` with no argument: split on whitespace runs,
discarding empty pieces. -/
def pySplit (s : String) : List String :=
  (wsSplitAux [] s.data).map String.mk

/-- Python `sep.join(parts)`. -/
def pyJoin (sep : String) : List String → String
  | [] => ""
  | [x] => x
  | x :: xs => x ++ sep ++ pyJoin sep xs

/-- Python's substring test `pat in s` (true iff `pat` occurs contiguously
in `s`). -/
def strContains (s pat : String) : Bool :=
  (List.range (s.data.length + 1)).any (fun i => pat.data.isPrefixOf (s.data.drop i))

/-- `next((m["content"] for m in reversed(messages) if m.get("role") == "user"), "")`:
the content of the most recent user message, defaulting to the empty string. -/
def lastUserContent (messages : List Msg) : String :=
  ((messages.reverse.find? (fun m => m.role == "user")).map Msg.content).getD ""

/-- The JSON object parsed from the classification oracle's reply in
`classify_intent` (`src/agents/conversation_agent.py`). Each field is
`none` when the corresponding key is absent, matching `parsed.get(...)`. -/
structure IntentJson where
  intent : Option String
  confidence : Option Rat
  reasoning : Option String
deriving DecidableEq, Repr

/-- The dict returned by `classify_intent`. The early-return paths produce
only the `"intent"` key, hence the `Option` fields. -/
structure IntentResult where
  intent : String
  confidence : Option Rat
  reasoning : Option String
deriving DecidableEq, Repr

/-- `classify_intent` (`src/agents/conversation_agent.py` lines 14-125).
`oracle` is the chat-completion call: `none` models the call (or JSON
parsing) raising, which the source catches and maps to the fallback
`{"intent": "new_search", "confidence": 0.3, "reasoning": "fallback"}`. -/
def classify_intent (messages : List Msg) (oracle : Option IntentJson) : IntentResult :=
  if messages = [] then ⟨"new_search", none, none⟩
  else
    let last_user_msg := lastUserContent messages
    if last_user_msg = "" then ⟨"new_search", none, none⟩
    else
      let recipes_have_been_shown :=
        (messages.filter (fun m => m.role == "assistant")).length > 0
      match oracle with
      | none => ⟨"new_search", some (3 / 10 : Rat), some "fallback"⟩
      | some parsed =>
          let intent := parsed.intent.getD "new_search"
          let confidence := parsed.confidence.getD (1 / 2 : Rat)
          let reasoning := parsed.reasoning.getD ""
          if intent = "recipe_request" ∧ ¬ recipes_have_been_shown then
            ⟨"new_search", some confidence,
              some ("Overridden: " ++ reasoning ++ " (no recipes shown yet)")⟩
          else
            ⟨intent, some confidence, some reasoning⟩

/-- A recipe dict as produced by `search_recipes` and consumed by the
response/selection helpers. A field is `none` when the key is absent
(`recipe.get(key, default)` in the source). The float `score` plays no
role in any verified property and is omitted. -/
structure RecipeDict where
  title : Option String := none
  link : Option String := none
  ingredients : Option (List String) := none
  directions : Option (List String) := none
  source : Option String := none
deriving DecidableEq, Repr

/-- The pydantic `UserPreferences` model (`src/models/schema.py`): the
structured preference slot set, each string slot either a concrete value
or the sentinel `"unknown"`. -/
structure UserPreferences where
  language : String
  cuisine : String
  diet : String
  dish : String
  ingredients : List String
  allergies : List String
  meal_type : String
  cooking_time : String
deriving DecidableEq, Repr

/-- `enumerate(directions)` rendered as `f"{idx + 1}. 🔪 {step}"`: numbers the
steps `k+1, k+2, ...` (the source starts at `k = 0`). -/
def number_steps (k : Nat) : List String → List String
  | [] => []
  | d :: ds => (toString (k + 1) ++ ". 🔪 " ++ d) :: number_steps (k + 1) ds

/-- The `formatted_ingredients` local of `format_recipe`
(`src/agents/helpers.py` line 221): emoji bullets, or the literal notice
for an empty list. -/
def formatted_ingredients (recipe : RecipeDict) : String :=
  if (recipe.ingredients.getD []).isEmpty then "No ingredients provided."
  else pyJoin "\n" ((recipe.ingredients.getD []).map (fun item => "- 🧂 " ++ item))

/-- The `formatted_directions` local of `format_recipe`
(`src/agents/helpers.py` lines 224-226): steps numbered from 1, or the
literal notice for an empty list. -/
def formatted_directions (recipe : RecipeDict) : String :=
  if (recipe.directions.getD []).isEmpty then "No instructions provided."
  else pyJoin "\n" (number_steps 0 (recipe.directions.getD []))

/-- The `source_attribution` local of `format_recipe`
(`src/agents/helpers.py` line 229): a markdown hyperlink when a non-blank
link exists, plain text otherwise. -/
def source_attribution (recipe : RecipeDict) : String :=
  let source := recipe.source.getD "Unknown Source"
  let link := pyTrim (recipe.link.getD "")
  if link ≠ "" then "\n\n📖 *Source: [" ++ source ++ "](" ++ link ++ ")*"
  else "\n\n📖 *Source: " ++ source ++ "*"

/-- `format_recipe` (`src/agents/helpers.py` lines 209-236; the identical
copy in `src/agents/response_agent.py` lines 117-144 is the one reached
from the live graph). -/
def format_recipe (recipe : RecipeDict) : String :=
  "### 🍽️ " ++ recipe.title.getD "Untitled Recipe" ++
    "\n\n**Ingredients:**\n" ++ formatted_ingredients recipe ++
    "\n\n**Directions:**\n" ++ formatted_directions recipe ++
    source_attribution recipe

/-- Query-term list built by `search_recipes` (`src/agents/search_agent.py`
lines 28-45): the `cuisine`, `diet`, `dish`, `meal_type`, `cooking_time`
slots that are non-empty and not `"unknown"`, in that order, followed by
the ingredients list. `language` and `allergies` are not consulted. -/
def search_query_terms (p : UserPreferences) : List String :=
  ([p.cuisine, p.diet, p.dish, p.meal_type, p.cooking_time].filter
      (fun f => f ≠ "" ∧ f ≠ "unknown")) ++ p.ingredients

/-- The query text embedded and sent to the vector index
(`src/agents/search_agent.py` lines 47-51): space-joined terms, with the
generic fallback when no term was collected. -/
def search_query (p : UserPreferences) : String :=
  let query_terms := search_query_terms p
  if query_terms = [] then pyJoin " " ["healthy dinner"] else pyJoin " " query_terms

/-- The `top_k` argument of the Pinecone query
(`src/agents/search_agent.py` line 64). -/
def search_top_k : Nat := 3

/-- Modelled from the spec: the claim's reading of the retrieval query —
"the space-joined sequence of all non-`unknown` (and non-empty) preference
slot values plus all listed ingredients". All scalar slots (including
`language`) contribute. Written from the spec's words for comparison with
`search_query_terms`, which is translated from the source. -/
def claimed_query_terms (p : UserPreferences) : List String :=
  ([p.language, p.cuisine, p.diet, p.dish, p.meal_type, p.cooking_time].filter
      (fun v => v ≠ "unknown" ∧ v ≠ "")) ++ p.ingredients

/-- The scalar preference slots that `search_recipes` actually reads,
looked up by name (rewording of the amended claim; compared against the
source-translated `search_query_terms`). -/
def slot_value (p : UserPreferences) : String → String
  | "cuisine" => p.cuisine
  | "diet" => p.diet
  | "dish" => p.dish
  | "meal_type" => p.meal_type
  | "cooking_time" => p.cooking_time
  | _ => ""

/-- Amended-claim query terms: the non-`unknown`, non-empty values of the
five slots `cuisine, diet, dish, meal_type, cooking_time`, in source
order, plus all listed ingredients. -/
def amended_query_terms (p : UserPreferences) : List String :=
  ((["cuisine", "diet", "dish", "meal_type", "cooking_time"].map (slot_value p)).filter
      (fun v => v ≠ "unknown" ∧ v ≠ "")) ++ p.ingredients

/-- The per-recipe match test inside the `for recipe in results:` loop of
`handle_recipe_request` (`src/agents/services.py` lines 304-325): first
substring containment of the normalized recipe title in the normalized
user message, then fuzzy overlap of at least 2 significant (> 3 chars)
title words. An empty title is skipped (`continue`). -/
def recipe_matches (normalized_msg : String) (r : RecipeDict) : Bool :=
  let recipe_title := pyTrim (pyLower (r.title.getD ""))
  if recipe_title = "" then false
  else
    let normalized_recipe := pyJoin " " (pySplit recipe_title)
    if strContains normalized_msg normalized_recipe then true
    else
      let recipe_words := (pySplit normalized_recipe).filter (fun w => w.length > 3)
      if recipe_words.length ≥ 2 then
        decide (((recipe_words.filter (fun w => strContains normalized_msg w)).length) ≥ 2)
      else false

/-- The message normalization applied inside the loop:
`" ".join(last_user_msg.split())` of the lowercased last user message. -/
def normalized_last_msg (messages : List Msg) : String :=
  pyJoin " " (pySplit (pyLower (lastUserContent messages)))

/-- The recipe chosen by `handle_recipe_request`
(`src/agents/services.py` lines 289-329): `top_recipe` starts as
`results[0]`, the loop replaces it with the first pool entry matching
`recipe_matches` (pool order, `break` on first hit), and the loop is
skipped entirely when there is no (non-empty) last user message. -/
def handle_recipe_request_selection (results : List RecipeDict) (messages : List Msg) :
    Option RecipeDict :=
  match results with
  | [] => none
  | r0 :: _ =>
    let last_user_msg := pyLower (lastUserContent messages)
    if messages = [] ∨ last_user_msg = "" then some r0
    else
      let normalized_msg := pyJoin " " (pySplit last_user_msg)
      match results.find? (recipe_matches normalized_msg) with
      | some r => some r
      | none => some r0

/-- The `number_map` dict of `user_selected_recipe`
(`src/agents/helpers.py` lines 304-314), in Python 3.7+ insertion order. -/
def number_map : List (String × Nat) :=
  [("first", 0), ("1", 0), ("one", 0),
   ("second", 1), ("2", 1), ("two", 1),
   ("third", 2), ("3", 2), ("three", 2)]

/-- The word group mapped to a given index by `number_map`. -/
def ordinal_words : Nat → List String
  | 0 => ["first", "1", "one"]
  | 1 => ["second", "2", "two"]
  | 2 => ["third", "3", "three"]
  | _ => []

/-- The ordinal/numeric selection stage of `user_selected_recipe`
(`src/agents/helpers.py` lines 300-318): iterate `number_map` in order and
return `results[index]` for the first entry whose word occurs in the
(translated, lowercased) user message and whose index is within the pool;
`none` when no entry fires (the source then falls through to a model-based
title resolution, an oracle outside this stage). -/
def user_selected_recipe_ordinal (translated_msg : String) (results : List RecipeDict) :
    Option RecipeDict :=
  (number_map.find? (fun wi => strContains translated_msg wi.1 && wi.2 < results.length)).bind
    (fun wi => results.get? wi.2)

/-! ### Title extraction (`analyze_recipe_request`, lines 49-103)

The three `re.findall` patterns are modelled operationally on `List Char`.
Backtracking choices that provably cannot matter (a shorter greedy run
always leaves a character of the same class in a position where a
different class is required) are collapsed; the lazy capture of the
numbered pattern is implemented shortest-first exactly as `re` does. -/

/-- Terminator of the numbered-list pattern,
`(?:\s*—|\s*:|\n|$)`, tried in alternation order. A `\s*` followed by a
literal can only succeed after the maximal whitespace run, since any
shorter run leaves a whitespace character where the literal is required.
Returns the rest after the consumed terminator. -/
def numTermMatch (cs : List Char) : Option (List Char) :=
  let rest := cs.dropWhile Char.isWhitespace
  match rest with
  | '—' :: r => some r
  | ':' :: r => some r
  | _ =>
    match cs with
    | '\n' :: r => some r
    | [] => some []
    | _ => none

/-- After the capture group: the optional `[\*\*]?` star (greedy; not
consuming it can never help because the capture class and every
terminator reject `*`), then the terminator. -/
def afterNumCapture (cs : List Char) : Option (List Char) :=
  match cs with
  | '*' :: r =>
    (match numTermMatch r with
     | some r2 => some r2
     | none => numTermMatch cs)
  | _ => numTermMatch cs

/-- Character class of the numbered capture group, `[^\n\*\:]`. -/
def numCaptureClass (c : Char) : Bool :=
  c ≠ '\n' && c ≠ '*' && c ≠ ':'

/-- The lazy capture `([^\n\*\:]+?)`: shortest non-empty capture whose
suffix matches `[\*\*]?` + terminator. Returns (capture, rest). -/
def lazyNumCapture (acc : List Char) : List Char → Option (List Char × List Char)
  | [] => none
  | c :: r =>
    if numCaptureClass c then
      let acc2 := c :: acc
      match afterNumCapture r with
      | some rest => some (acc2.reverse, rest)
      | none => lazyNumCapture acc2 r
    else none

/-- `[\*\*]?` before the capture (a second `*` cannot start the capture,
so declining the star can never help). -/
def starThenCapture (cs : List Char) : Option (List Char × List Char) :=
  match cs with
  | '*' :: r => lazyNumCapture [] r
  | _ => lazyNumCapture [] cs

/-- Backtracking over the greedy `\s+`: try consuming `k = n, ..., 1`
whitespace characters (the unconsumed tail joins the capture, whose class
admits whitespace). -/
def wsBacktrack (ws rest : List Char) : Nat → Option (List Char × List Char)
  | 0 => none
  | k + 1 =>
    match starThenCapture (ws.drop (k + 1) ++ rest) with
    | some out => some out
    | none => wsBacktrack ws rest k

/-- One attempt of the numbered pattern
`(\d+)\.\s+(?:[\*\*]?)([^\n\*\:]+?)(?:[\*\*]?)(?:\s*—|\s*:|\n|$)` anchored
at the head of `cs` (the `(\d+)` group is discarded: the source ignores
`num_str`). Returns (captured title, rest after the whole match). -/
def tryNumberedAt (cs : List Char) : Option (List Char × List Char) :=
  let ds := cs.takeWhile Char.isDigit
  let r1 := cs.dropWhile Char.isDigit
  if ds.isEmpty then none
  else
    match r1 with
    | '.' :: r2 =>
      let ws := r2.takeWhile Char.isWhitespace
      let r3 := r2.dropWhile Char.isWhitespace
      if ws.isEmpty then none else wsBacktrack ws r3 ws.length
    | _ => none

/-- `re.findall` scan for the numbered pattern: try a match at every
position left to right, resuming after the end of each match. -/
def findNumbered : Nat → List Char → List String
  | 0, _ => []
  | _, [] => []
  | fuel + 1, cs =>
    match tryNumberedAt cs with
    | some (cap, rest) => String.mk cap :: findNumbered fuel rest
    | none => findNumbered fuel cs.tail

/-- One attempt of the bold pattern `\*\*([^*\n]+?)\*\*` anchored at the
head: `**`, then the maximal run of non-`*`/non-newline characters (the
lazy capture can only stop at a `*`), then `**`. -/
def tryBoldAt (cs : List Char) : Option (List Char × List Char) :=
  match cs with
  | '*' :: '*' :: r =>
    let run := r.takeWhile (fun c => c ≠ '*' && c ≠ '\n')
    let r2 := r.dropWhile (fun c => c ≠ '*' && c ≠ '\n')
    if run.isEmpty then none
    else
      match r2 with
      | '*' :: '*' :: r3 => some (run, r3)
      | _ => none
  | _ => none

/-- `re.findall` scan for the bold pattern. -/
def findBold : Nat → List Char → List String
  | 0, _ => []
  | _, [] => []
  | fuel + 1, cs =>
    match tryBoldAt cs with
    | some (cap, rest) => String.mk cap :: findBold fuel rest
    | none => findBold fuel cs.tail

/-- The fork-and-knife emoji of the header pattern is the two-codepoint
sequence U+1F37D U+FE0F, exactly as written in the source pattern. -/
def plateChar : Char := Char.ofNat 0x1F37D

/-- Variation selector 16, the second codepoint of the emoji. -/
def vs16Char : Char := Char.ofNat 0xFE0F

/-- One attempt of the header pattern `#+\s+🍽️\s+([^\n]+)` anchored at the
head: hashes, whitespace, the emoji pair, whitespace, then the (greedy)
rest of the line. -/
def tryHeaderAt (cs : List Char) : Option (List Char × List Char) :=
  let hs := cs.takeWhile (fun c => c = '#')
  let r1 := cs.dropWhile (fun c => c = '#')
  if hs.isEmpty then none
  else
    let ws1 := r1.takeWhile Char.isWhitespace
    let r2 := r1.dropWhile Char.isWhitespace
    if ws1.isEmpty then none
    else
      match r2 with
      | c1 :: c2 :: r3 =>
        if c1 = plateChar ∧ c2 = vs16Char then
          let ws2 := r3.takeWhile Char.isWhitespace
          let r4 := r3.dropWhile Char.isWhitespace
          if ws2.isEmpty then none
          else
            let cap := r4.takeWhile (fun c => c ≠ '\n')
            let r5 := r4.dropWhile (fun c => c ≠ '\n')
            if cap.isEmpty then none else some (cap, r5)
        else none
      | _ => none

/-- `re.findall` scan for the header pattern. -/
def findHeader : Nat → List Char → List String
  | 0, _ => []
  | _, [] => []
  | fuel + 1, cs =>
    match tryHeaderAt cs with
    | some (cap, rest) => String.mk cap :: findHeader fuel rest
    | none => findHeader fuel cs.tail

/-- Python `s.strip('*')`. -/
def stripStars (s : String) : String :=
  String.mk (((s.data.dropWhile (fun c => c = '*')).reverse.dropWhile
      (fun c => c = '*')).reverse)

/-- Cleanup of a numbered-list candidate: `title.strip().strip('*').strip()`. -/
def cleanNumbered (s : String) : String := pyTrim (stripStars (pyTrim s))

/-- The fixed stop-word set `excluded_words`
(`src/agents/recipe_request_agent.py` line 53). -/
def excluded_words : List String :=
  ["crust", "ingredients", "toppings", "directions", "source", "recipe", "option", "choice"]

/-- The acceptance test applied to every candidate title: non-empty,
longer than 3 characters, lowercase form not a stop word, and not every
word of it a stop word. -/
def validTitle (title : String) : Bool :=
  let lower := pyLower title
  title ≠ "" && title.length > 3 &&
    !(excluded_words.contains lower) &&
    !((pySplit lower).all (fun w => excluded_words.contains w))

/-- One step of the dedup loop: `st.1` is the `seen_titles` set (lowercase
forms), `st.2` the accumulating `previously_shown_recipes` list. -/
def addTitle (st : List String × List String) (title : String) : List String × List String :=
  if validTitle title then
    if st.1.contains (pyLower title) then st
    else (pyLower title :: st.1, st.2 ++ [title])
  else st

/-- Candidate titles of one assistant message, in the order the source
processes them: numbered-list matches (cleaned), then bold matches
(trimmed), then header matches (trimmed). -/
def messageCandidates (content : String) : List String :=
  let cs := content.data
  (findNumbered (cs.length + 1) cs).map cleanNumbered ++
    (findBold (cs.length + 1) cs).map pyTrim ++
    (findHeader (cs.length + 1) cs).map pyTrim

/-- `previously_shown_recipes` as built by `analyze_recipe_request`
(`src/agents/recipe_request_agent.py` lines 49-103): scan messages
most-recent-first, extract/filter/dedup candidates from each assistant
message, then reverse the whole accumulated list. -/
def previously_shown_recipes (messages : List Msg) : List String :=
  let step := fun (st : List String × List String) (m : Msg) =>
    if m.role == "assistant" then (messageCandidates m.content).foldl addTitle st
    else st
  ((messages.reverse.foldl step ([], [])).2).reverse

/-- The dict returned by `analyze_recipe_request`: request type, the two
optional bindings, and the reasoning text. -/
structure AnalysisResult where
  type : String
  matched_recipe_title : Option String
  dish_name : Option String
  reasoning : String
deriving DecidableEq, Repr

/-- `analyze_recipe_request` (`src/agents/recipe_request_agent.py` lines
14-222). `oracle` is the chat-completion call returning the parsed JSON;
`none` models the call raising, handled by the deterministic fallback of
lines 202-222. The early returns of lines 36-47 produce dicts without the
`matched_recipe_title`/`dish_name` keys, modelled as `none`. -/
def analyze_recipe_request (messages : List Msg) (oracle : Option AnalysisResult) :
    AnalysisResult :=
  if messages = [] then ⟨"new_dish", none, none, "No conversation history"⟩
  else
    let last_user_msg := lastUserContent messages
    if last_user_msg = "" then ⟨"new_dish", none, none, "No user message found"⟩
    else
      let shown := previously_shown_recipes messages
      match oracle with
      | some parsed => parsed
      | none =>
        if shown ≠ [] ∧ (pySplit last_user_msg).length ≤ 5 then
          ⟨"dish", none, none, "Fallback: short message with previously shown recipes"⟩
        else
          ⟨"new_dish", none, none, "Fallback: new dish"⟩

/-! ### The LangGraph conversation state machine (`src/mcp/graph.py`) -/

/-- `route_after_intent` (`src/mcp/graph.py` lines 356-385): maps the state's
`intent` field (an optional string) to a routing key; anything unrecognised
(including an unset intent) defaults to `"new_search"`. -/
def route_after_intent (intent : Option String) : String :=
  if intent = some "new_search" then "new_search"
  else if intent = some "comparison" then "comparison"
  else if intent = some "recipe_request" then "recipe_request"
  else if intent = some "general" then "general"
  else "new_search"

/-- The conditional-edge dict attached to the `"intent"` node in
`build_graph` (`src/mcp/graph.py` lines 402-411), mapping the routing key
to the next node. -/
def intent_conditional_edges : String → Option String
  | "new_search" => some "parse"
  | "comparison" => some "response"
  | "recipe_request" => some "response"
  | "general" => some "response"
  | _ => none

/-- `route_after_recipe_analysis` (`src/mcp/graph.py` lines 333-354). -/
def route_after_recipe_analysis (request_type : Option String) : String :=
  if request_type = some "specific_recipe" then "response"
  else if request_type = some "dish" then "show_recipes"
  else "parse"

/-- The conditional-edge dict attached to the `"recipe_analysis"` node in
`build_graph` (`src/mcp/graph.py` lines 414-422). -/
def recipe_analysis_conditional_edges : String → Option String
  | "response" => some "response"
  | "show_recipes" => some "show_recipes"
  | "parse" => some "parse"
  | _ => none

/-- The possible routing keys produced by `route_after_intent`
(`route_after_intent_mem_routes` below proves the coverage). -/
def intent_routes : List String := ["new_search", "comparison", "recipe_request", "general"]

/-- The possible routing keys produced by `route_after_recipe_analysis`. -/
def analysis_routes : List String := ["response", "show_recipes", "parse"]

/-- Successor nodes of each graph node per `build_graph`
(`src/mcp/graph.py` lines 388-430): the conditional edges out of
`"intent"` and `"recipe_analysis"` (images of the routing functions under
the edge dicts) and the fixed edges `parse → search`, `search → response`,
`response → END`, `show_recipes → END`. -/
def graph_successors : String → List String
  | "intent" => intent_routes.filterMap intent_conditional_edges
  | "recipe_analysis" => analysis_routes.filterMap recipe_analysis_conditional_edges
  | "parse" => ["search"]
  | "search" => ["response"]
  | "response" => ["END"]
  | "show_recipes" => ["END"]
  | _ => []

/-- One breadth step of reachability over `graph_successors`. -/
def reach_step (frontier : List String) : List String :=
  (frontier ++ frontier.flatMap graph_successors).dedup

/-- Iterated reachability. -/
def reach_iter : Nat → List String → List String
  | 0, s => s
  | n + 1, s => reach_iter n (reach_step s)

/-- All nodes reachable from the entry point `"intent"` (7 iterations is
past the fixpoint for this 7-node graph). -/
def graph_reachable : List String := reach_iter 7 ["intent"]

/-- The LangGraph state (`src/mcp/schema.py`, `TastyAIState`). -/
structure GraphState where
  user_input : Option String := none
  conversation_id : Option String := none
  preferences : Option UserPreferences := none
  results : Option (List RecipeDict) := none
  previous_results : Option (List RecipeDict) := none
  generated_response : Option String := none
  intent : Option String := none
  intent_reasoning : Option String := none
  recipe_request_type : Option String := none
  matched_recipe_title : Option String := none
  dish_name : Option String := none
  messages : List Msg := []
deriving DecidableEq, Repr

/-- The oracle bundle for one turn: the classification call of
`intent_node`, the parsed preferences produced by `parse_user_input`
(its own failure fallback is the all-`unknown` dict, already folded into
this value), the retrieval results as a function of the query text built
by `search_recipes`, a fresh uuid, and the text produced by
`generate_response`. Database side effects (`save_message_to_db`) are
external and not modelled. -/
structure TurnOracles where
  classify : Option IntentJson
  parsed : UserPreferences
  search : String → List RecipeDict
  fresh_id : String
  generate : String

/-- `intent_node` (`src/mcp/graph.py` lines 14-40). -/
def intent_node (o : TurnOracles) (s : GraphState) : GraphState :=
  let conversation_id :=
    if s.user_input.getD "" ≠ "" then some (s.conversation_id.getD o.fresh_id)
    else s.conversation_id
  let res := classify_intent s.messages o.classify
  { s with intent := some res.intent,
           intent_reasoning := some (res.reasoning.getD ""),
           conversation_id := conversation_id }

/-- `parser_node` (`src/mcp/graph.py` lines 42-64): appends the user turn
to the message list and stores the parsed preferences. -/
def parser_node (o : TurnOracles) (s : GraphState) : GraphState :=
  { s with messages := s.messages ++ [⟨"user", s.user_input.getD ""⟩],
           preferences := some o.parsed,
           conversation_id := some (s.conversation_id.getD o.fresh_id) }

/-- `search_node` (`src/mcp/graph.py` lines 66-92): replaces `results` with
the matches retrieved for the query built from the preferences (only ever
entered after `parser_node`, which sets them). -/
def search_node (o : TurnOracles) (s : GraphState) : GraphState :=
  { s with results := some (o.search (search_query
      (s.preferences.getD ⟨"unknown", "unknown", "unknown", "unknown", [], [], "unknown", "unknown"⟩))) }

/-- The default preferences dict built by `response_node` when the state
carries none (`src/mcp/graph.py` lines 110-123). -/
def response_default_prefs : UserPreferences :=
  ⟨"English", "unknown", "unknown", "unknown", [], [], "unknown", "unknown"⟩

/-- `response_node` (`src/mcp/graph.py` lines 94-198): ensures the user
turn is in the message list, defaults missing preferences, for
`recipe_request` merges in `previous_results` (locally only) and answers
with a canned message when that merged pool is empty, otherwise stores the
generation oracle's reply. The returned state never touches `results`. -/
def response_node (o : TurnOracles) (s : GraphState) : GraphState :=
  let updated_messages :=
    match s.user_input with
    | none => s.messages
    | some ui =>
      if ui = "" then s.messages
      else
        match s.messages.getLast? with
        | none => s.messages ++ [⟨"user", ui⟩]
        | some last => if last.content ≠ ui then s.messages ++ [⟨"user", ui⟩] else s.messages
  let updated_preferences := some (s.preferences.getD response_default_prefs)
  let results_dicts := s.results.getD []
  let results_dicts :=
    if s.intent = some "recipe_request" ∧ (s.previous_results.getD []) ≠ [] then
      results_dicts ++ (s.previous_results.getD []).filter (fun r => !results_dicts.contains r)
    else results_dicts
  if s.intent = some "recipe_request" ∧ results_dicts = [] then
    { s with messages := updated_messages, preferences := updated_preferences,
             generated_response :=
               some "I can't find what you're looking for. Please give me more details so I can try again." }
  else
    { s with messages := updated_messages, preferences := updated_preferences,
             generated_response := some o.generate }

/-- One full turn of the compiled graph: run `intent_node` at the entry
point, then follow the conditional edge chosen by `route_after_intent`
through the fixed edges of `build_graph` until `END`. As the edge dict
shows, only the `parse → search → response` chain and the direct
`response` edge are ever taken. -/
def run_turn (o : TurnOracles) (s : GraphState) : GraphState :=
  let s1 := intent_node o s
  match intent_conditional_edges (route_after_intent s1.intent) with
  | some "parse" => response_node o (search_node o (parser_node o s1))
  | some "response" => response_node o s1
  | _ => s1

/-- Concrete oracle bundle used to witness the comparison-turn theorem. -/
def comparison_oracles : TurnOracles where
  classify := some ⟨some "comparison", some (9 / 10 : Rat), some "user compares options"⟩
  parsed := ⟨"en", "italian", "unknown", "unknown", [], [], "dinner", "unknown"⟩
  search := fun _ => [{ title := some "Margherita Pizza" }]
  fresh_id := "uuid-1"
  generate := "The first one has fewer steps."

/-- Concrete state used to witness the comparison-turn theorem: a carried
two-recipe pool and a follow-up comparison question. -/
def comparison_state : GraphState where
  user_input := some "which one is quicker?"
  conversation_id := some "conv-1"
  results := some [{ title := some "Lasagna Bolognese" }, { title := some "Margherita Pizza" }]
  messages := [⟨"user", "Italian dinner"⟩,
               ⟨"assistant", "1. Lasagna Bolognese\n2. Margherita Pizza"⟩,
               ⟨"user", "which one is quicker?"⟩]

/-! ## Theorems -/

/-- `(a ++ b).data = a.data ++ b.data`. -/
theorem data_append (a b : String) : (a ++ b).data = a.data ++ b.data := by
  cases a
  cases b
  rfl

/-- `route_after_intent` only ever produces one of the four routing keys. -/
theorem route_after_intent_mem_routes (intent : Option String) :
    route_after_intent intent ∈ intent_routes := by
  unfold route_after_intent intent_routes
  split
  · simp
  · split
    · simp
    · split
      · simp
      · split <;> simp

/-- `route_after_recipe_analysis` only ever produces one of its three
routing keys. -/
theorem route_after_recipe_analysis_mem_routes (t : Option String) :
    route_after_recipe_analysis t ∈ analysis_routes := by
  unfold route_after_recipe_analysis analysis_routes
  split
  · simp
  · split <;> simp

/-- C1. For every turn history with no assistant turn and every oracle
classification output: if the oracle returns intent `recipe_request`, the
effective output intent is `new_search` and (whenever the oracle was
actually consulted, i.e. a non-empty user message exists) the reasoning is
rewritten to record the override; and `recipe_request` is never the
effective output while no recipe has been shown. -/
theorem classify_intent_override_when_no_recipes_shown
    (messages : List Msg) (oracle : Option IntentJson)
    (hna : messages.filter (fun m => m.role == "assistant") = []) :
    (classify_intent messages oracle).intent ≠ "recipe_request" ∧
    ∀ p, oracle = some p → p.intent.getD "new_search" = "recipe_request" →
      (classify_intent messages oracle).intent = "new_search" ∧
      (lastUserContent messages ≠ "" →
        (classify_intent messages oracle).reasoning =
          some ("Overridden: " ++ p.reasoning.getD "" ++ " (no recipes shown yet)")) := by
  unfold classify_intent
  by_cases h1 : messages = []
  · refine ⟨by simp [h1], ?_⟩
    intro p hp hint
    refine ⟨by simp [h1], ?_⟩
    intro hu
    exact absurd (by simp [lastUserContent, h1]) hu
  · by_cases h2 : lastUserContent messages = ""
    · refine ⟨by simp [h1, h2], ?_⟩
      intro p hp hint
      exact ⟨by simp [h1, h2], fun hu => absurd h2 hu⟩
    · cases oracle with
      | none => exact ⟨by simp [h1, h2], by intro p hp; cases hp⟩
      | some p =>
        by_cases h3 : p.intent.getD "new_search" = "recipe_request"
        · have hcond : p.intent.getD "new_search" = "recipe_request" ∧
              ¬ (messages.filter (fun m => m.role == "assistant")).length > 0 := by
            simp [h3, hna]
          refine ⟨?_, ?_⟩
          · simp [h1, h2, hcond]
          · intro q hq hintq
            cases hq
            exact ⟨by simp [h1, h2, hcond], fun _ => by simp [h1, h2, hcond]⟩
        · have hcond : ¬ (p.intent.getD "new_search" = "recipe_request" ∧
              ¬ (messages.filter (fun m => m.role == "assistant")).length > 0) := by
            simp [h3]
          refine ⟨?_, ?_⟩
          · simp only [h1, h2, if_neg h1, if_neg h2, if_neg hcond]
            exact h3
          · intro q hq hintq
            cases hq
            exact absurd hintq h3

/-- Witness for C1 at a concrete input: a single-user-turn history with an
oracle reply of `recipe_request`. -/
theorem classify_intent_override_witness :
    (classify_intent [⟨"user", "hi"⟩]
        (some ⟨some "recipe_request", none, some "selects a dish"⟩)).intent = "new_search" ∧
    (classify_intent [⟨"user", "hi"⟩]
        (some ⟨some "recipe_request", none, some "selects a dish"⟩)).reasoning =
      some "Overridden: selects a dish (no recipes shown yet)" := by
  have h := classify_intent_override_when_no_recipes_shown [⟨"user", "hi"⟩]
    (some ⟨some "recipe_request", none, some "selects a dish"⟩) (by decide)
  have h2 := h.2 ⟨some "recipe_request", none, some "selects a dish"⟩ rfl (by decide)
  exact ⟨h2.1, by simpa using h2.2 (by decide)⟩

/-- C5 counterexample. A turn history with zero assistant turns for which
the classifier does NOT return `new_search`: the override of
`classify_intent` only rewrites `recipe_request`, so an oracle intent of
`general` (or `comparison`) passes through unchanged. -/
theorem classify_intent_zero_assistant_counterexample :
    ([⟨"user", "thanks"⟩] : List Msg).filter (fun m => m.role == "assistant") = [] ∧
    (classify_intent [⟨"user", "thanks"⟩] (some ⟨some "general", none, none⟩)).intent
      = "general" ∧
    (classify_intent [⟨"user", "thanks"⟩] (some ⟨some "general", none, none⟩)).intent
      ≠ "new_search" := by
  refine ⟨by decide, by decide, by decide⟩

/-- C5 amended. For every turn history with zero assistant turns: the
returned intent is never `recipe_request`; it is `new_search` whenever the
history is empty, no non-empty user message exists, or the oracle fails;
and otherwise it equals the oracle's intent with only `recipe_request`
rewritten to `new_search`. -/
theorem classify_intent_zero_assistant_amended
    (messages : List Msg) (oracle : Option IntentJson)
    (hna : messages.filter (fun m => m.role == "assistant") = []) :
    (classify_intent messages oracle).intent ≠ "recipe_request" ∧
    ((messages = [] ∨ lastUserContent messages = "" ∨ oracle = none) →
      (classify_intent messages oracle).intent = "new_search") ∧
    (∀ p, oracle = some p → messages ≠ [] → lastUserContent messages ≠ "" →
      (classify_intent messages oracle).intent =
        if p.intent.getD "new_search" = "recipe_request" then "new_search"
        else p.intent.getD "new_search") := by
  unfold classify_intent
  by_cases h1 : messages = []
  · refine ⟨by simp [h1], fun _ => by simp [h1], ?_⟩
    intro p hp hne
    exact absurd h1 hne
  · by_cases h2 : lastUserContent messages = ""
    · refine ⟨by simp [h1, h2], fun _ => by simp [h1, h2], ?_⟩
      intro p hp hne hu
      exact absurd h2 hu
    · cases oracle with
      | none =>
        refine ⟨by simp [h1, h2], fun _ => by simp [h1, h2], ?_⟩
        intro p hp
        cases hp
      | some p =>
        by_cases h3 : p.intent.getD "new_search" = "recipe_request"
        · have hcond : p.intent.getD "new_search" = "recipe_request" ∧
              ¬ (messages.filter (fun m => m.role == "assistant")).length > 0 := by
            simp [h3, hna]
          refine ⟨by simp [h1, h2, hcond], ?_, ?_⟩
          · rintro (h | h | h)
            · exact absurd h h1
            · exact absurd h h2
            · cases h
          · intro q hq hne hu
            cases hq
            simp [h1, h2, hcond, h3]
        · have hcond : ¬ (p.intent.getD "new_search" = "recipe_request" ∧
              ¬ (messages.filter (fun m => m.role == "assistant")).length > 0) := by
            simp [h3]
          refine ⟨?_, ?_, ?_⟩
          · simp only [h1, h2, if_neg h1, if_neg h2, if_neg hcond]
            exact h3
          · rintro (h | h | h)
            · exact absurd h h1
            · exact absurd h h2
            · cases h
          · intro q hq hne hu
            cases hq
            simp [h1, h2, hcond, h3]

/-- Witness for the amended C5 at a concrete input: a zero-assistant
history with an oracle intent of `general` is returned unchanged, and one
of `recipe_request` is rewritten. -/
theorem classify_intent_zero_assistant_amended_witness :
    (classify_intent [⟨"user", "hello"⟩] (some ⟨some "general", none, none⟩)).intent
      = "general" := by
  have h := (classify_intent_zero_assistant_amended [⟨"user", "hello"⟩]
      (some ⟨some "general", none, none⟩) (by decide)).2.2
      ⟨some "general", none, none⟩ rfl (by decide) (by decide)
  simpa using h

/-- C2. Evaluation of the routing at a `recipe_request` turn: the router
emits the `"recipe_request"` key, but the conditional-edge dict of
`build_graph` maps that key to the `response` node — not to
`recipe_analysis` — so the `recipe_analysis` node (and with it
`show_recipes`) is unreachable from the entry point, while its own
outgoing routing would implement the documented three-way dispatch. -/
theorem recipe_request_routes_to_response_not_analysis :
    route_after_intent (some "recipe_request") = "recipe_request" ∧
    intent_conditional_edges "recipe_request" = some "response" ∧
    graph_reachable.contains "recipe_analysis" = false ∧
    graph_reachable.contains "show_recipes" = false ∧
    graph_reachable.contains "response" = true ∧
    graph_successors "recipe_analysis" = ["response", "show_recipes", "parse"] := by
  refine ⟨rfl, rfl, by decide, by decide, by decide, rfl⟩

/-- C3. Evaluation of the title extraction at a single assistant turn
listing two numbered recipes: the most-recent-first accumulation followed
by one global reversal flips the within-message order, so index 0 is the
LAST title of the message, not the first recipe title that ever appeared
(contradicting the source's own comment that the final reversal restores
"the first one" = index 0). -/
theorem previously_shown_recipes_order_bug :
    previously_shown_recipes [⟨"assistant", "1. Lasagna Bolognese\n2. Margherita Pizza"⟩] =
      ["Margherita Pizza", "Lasagna Bolognese"] ∧
    (previously_shown_recipes
        [⟨"assistant", "1. Lasagna Bolognese\n2. Margherita Pizza"⟩]).get? 0 ≠
      some "Lasagna Bolognese" := by
  refine ⟨by decide, by decide⟩

/-- `find?` returns the entry at position `i` when it satisfies the
predicate and every earlier entry fails it. -/
theorem find?_eq_some_of_first {α : Type} (p : α → Bool) (l : List α) (i : Nat) (x : α)
    (hx : l.get? i = some x) (hpx : p x = true)
    (hearlier : ∀ j y, j < i → l.get? j = some y → p y = false) :
    l.find? p = some x := by
  induction l generalizing i with
  | nil => cases hx
  | cons a t ih =>
    cases i with
    | zero =>
      rw [List.get?_cons_zero] at hx
      cases hx
      rw [List.find?_cons_of_pos _ hpx]
    | succ j =>
      have ha : p a = false := hearlier 0 a (Nat.succ_pos j) rfl
      rw [List.find?_cons_of_neg _ (by simp [ha])]
      refine ih j ?_ ?_
      · simpa using hx
      · intro j' y hj' hy
        exact hearlier (j' + 1) y (Nat.succ_lt_succ hj') (by simpa using hy)

/-- C4 counterexample. A pool where the second entry's normalized title is
EXACTLY equal (case-insensitively) to the user message, while the first
entry only fuzzy-overlaps it — yet the selection returns the first entry:
pool order, not the claimed strategy order, decides, so exact title
equality does not take priority over fuzzy word-overlap. -/
theorem recipe_selection_pool_order_counterexample :
    handle_recipe_request_selection
        [{ title := some "Spicy Chicken Soup" }, { title := some "Chicken Soup" }]
        [⟨"user", "Chicken Soup"⟩] = some { title := some "Spicy Chicken Soup" } ∧
    pyJoin " " (pySplit (pyTrim (pyLower "Chicken Soup"))) =
      normalized_last_msg [⟨"user", "Chicken Soup"⟩] ∧
    pyJoin " " (pySplit (pyTrim (pyLower "Spicy Chicken Soup"))) ≠
      normalized_last_msg [⟨"user", "Chicken Soup"⟩] ∧
    ({ title := some "Spicy Chicken Soup" } : RecipeDict) ≠ { title := some "Chicken Soup" } := by
  refine ⟨by decide, by decide, by decide, by decide⟩

/-- C4 amended. `handle_recipe_request` scans the pool in pool order and
selects the first entry accepted by the per-entry test (substring of the
message, else ≥ 2 significant-word overlap); when no entry matches, or no
non-empty user message exists, it falls back to the first pool entry. -/
theorem handle_recipe_request_selection_first_pool_match
    (messages : List Msg) (results : List RecipeDict) :
    (pyLower (lastUserContent messages) ≠ "" →
      (∀ i r, results.get? i = some r →
        recipe_matches (normalized_last_msg messages) r = true →
        (∀ j r', j < i → results.get? j = some r' →
          recipe_matches (normalized_last_msg messages) r' = false) →
        handle_recipe_request_selection results messages = some r) ∧
      ((∀ r ∈ results, recipe_matches (normalized_last_msg messages) r = false) →
        handle_recipe_request_selection results messages = results.head?)) ∧
    (pyLower (lastUserContent messages) = "" →
      handle_recipe_request_selection results messages = results.head?) := by
  cases results with
  | nil =>
    refine ⟨fun _ => ⟨?_, ?_⟩, fun _ => rfl⟩
    · intro i r hi
      cases hi
    · intro _
      rfl
  | cons r0 rs =>
    by_cases hm : pyLower (lastUserContent messages) = ""
    · refine ⟨fun h => absurd hm h, fun _ => ?_⟩
      simp [handle_recipe_request_selection, hm]
    · have hne : messages ≠ [] := by
        intro h
        exact hm (by simp [h, lastUserContent, pyLower])
      have hguard : ¬ (messages = [] ∨ pyLower (lastUserContent messages) = "") := by
        simp [hne, hm]
      refine ⟨fun _ => ⟨?_, ?_⟩, fun h => absurd h hm⟩
      · intro i r hi hr hearlier
        have hfind : (r0 :: rs).find?
            (recipe_matches (pyJoin " " (pySplit (pyLower (lastUserContent messages)))))
              = some r := by
          refine find?_eq_some_of_first _ _ i r hi ?_ ?_
          · simpa [normalized_last_msg] using hr
          · intro j y hj hy
            simpa [normalized_last_msg] using hearlier j y hj hy
        simp only [handle_recipe_request_selection, if_neg hguard, hfind]
      · intro hall
        have hfind : (r0 :: rs).find?
            (recipe_matches (pyJoin " " (pySplit (pyLower (lastUserContent messages)))))
              = none := by
          rw [List.find?_eq_none]
          intro x hx
          simp only [Bool.not_eq_true]
          have := hall x hx
          simpa [normalized_last_msg] using this
        simp only [handle_recipe_request_selection, if_neg hguard, hfind, List.head?_cons]

/-- Witness for the amended C4 at a concrete input: a two-entry pool where
only the second entry matches, so the scan selects it; and an empty
message falls back to the first entry. -/
theorem handle_recipe_request_selection_first_pool_match_witness :
    handle_recipe_request_selection
        [{ title := some "Beef Stew" }, { title := some "Chicken Soup" }]
        [⟨"user", "the chicken soup please"⟩] = some { title := some "Chicken Soup" } := by
  refine ((handle_recipe_request_selection_first_pool_match
      [⟨"user", "the chicken soup please"⟩]
      [{ title := some "Beef Stew" }, { title := some "Chicken Soup" }]).1
      (by decide)).1 1 { title := some "Chicken Soup" } (by decide) (by decide) ?_
  intro j r' hj hr'
  interval_cases j
  · cases hr'
    decide

/-- C7. The ordinal stage selects an entry only at an index `i ≤ 2` that is
within the pool, reached through one of the mapped words
(`first/1/one → 0`, `second/2/two → 1`, `third/3/three → 2`) occurring in
the message; and whenever some mapped word occurs with its index in range,
an entry is selected — so an out-of-range ordinal alone never selects. -/
theorem user_selected_recipe_ordinal_table (msg : String) (results : List RecipeDict) :
    (∀ r, user_selected_recipe_ordinal msg results = some r →
      ∃ i, i ≤ 2 ∧ i < results.length ∧ results.get? i = some r ∧
        (ordinal_words i).any (fun w => strContains msg w) = true) ∧
    ((∃ i, i ≤ 2 ∧ i < results.length ∧
        (ordinal_words i).any (fun w => strContains msg w) = true) →
      (user_selected_recipe_ordinal msg results).isSome = true) := by
  have htable : ∀ wi ∈ number_map, wi.2 ≤ 2 ∧ wi.1 ∈ ordinal_words wi.2 := by decide
  constructor
  · intro r hr
    rw [user_selected_recipe_ordinal, Option.bind_eq_some] at hr
    obtain ⟨wi, hfind, hget⟩ := hr
    have hq := List.find?_some hfind
    have hmem := List.mem_of_find?_eq_some hfind
    rw [Bool.and_eq_true, decide_eq_true_eq] at hq
    obtain ⟨h1, h2⟩ := htable wi hmem
    refine ⟨wi.2, h1, hq.2, hget, ?_⟩
    rw [List.any_eq_true]
    exact ⟨wi.1, h2, hq.1⟩
  · rintro ⟨i, hi2, hilen, hany⟩
    rw [List.any_eq_true] at hany
    obtain ⟨w, hw, hcont⟩ := hany
    have hmem : (w, i) ∈ number_map := by
      interval_cases i <;> simp [ordinal_words] at hw <;>
        rcases hw with h | h | h <;> subst h <;> decide
    have hsome : (number_map.find?
        (fun wi => strContains msg wi.1 && wi.2 < results.length)).isSome = true := by
      rw [List.find?_isSome]
      exact ⟨(w, i), hmem, by simp [hcont, hilen]⟩
    obtain ⟨wi0, hwi0⟩ := Option.isSome_iff_exists.mp hsome
    have hq0 := List.find?_some hwi0
    rw [Bool.and_eq_true, decide_eq_true_eq] at hq0
    have hget0 : (results.get? wi0.2).isSome = true := by
      rcases h : results.get? wi0.2 with _ | v
      · rw [List.get?_eq_none] at h
        omega
      · rfl
    rw [user_selected_recipe_ordinal, hwi0]
    simpa using hget0

/-- Witness for C7 at a concrete input: "give me number 2" selects the
second entry of a two-entry pool (and the soundness bound applies to it). -/
theorem user_selected_recipe_ordinal_table_witness :
    ∃ i, i ≤ 2 ∧ i < ([{ title := some "A recipe" }, { title := some "B recipe" }] :
        List RecipeDict).length ∧
      ([{ title := some "A recipe" }, { title := some "B recipe" }] :
        List RecipeDict).get? i = some { title := some "B recipe" } ∧
      (ordinal_words i).any (fun w => strContains "give me number 2" w) = true :=
  (user_selected_recipe_ordinal_table "give me number 2"
      [{ title := some "A recipe" }, { title := some "B recipe" }]).1
    { title := some "B recipe" } (by decide)

/-- `response_node` never alters the `results` field of the state. -/
theorem response_node_preserves_results (o : TurnOracles) (s : GraphState) :
    (response_node o s).results = s.results := by
  unfold response_node
  dsimp only
  repeat' split
  all_goals rfl

/-- C6. A turn whose effective classification is `comparison` is routed
straight to the response node: no retrieval runs, and the recipe result
set carried by the conversation state is unchanged by the whole turn,
whatever the retrieval oracle would have returned. -/
theorem comparison_turn_preserves_results (o : TurnOracles) (s : GraphState)
    (h : (classify_intent s.messages o.classify).intent = "comparison") :
    (run_turn o s).results = s.results := by
  have h1 : (intent_node o s).intent = some "comparison" := by
    simp [intent_node, h]
  have h2 : run_turn o s = response_node o (intent_node o s) := by
    unfold run_turn
    dsimp only
    rw [h1]
    rfl
  rw [h2, response_node_preserves_results]
  rfl

/-- Witness for C6 at a concrete input: a carried two-recipe pool survives
a "which one is quicker?" comparison turn untouched. -/
theorem comparison_turn_preserves_results_witness :
    (run_turn comparison_oracles comparison_state).results =
      some [{ title := some "Lasagna Bolognese" }, { title := some "Margherita Pizza" }] := by
  have h := comparison_turn_preserves_results comparison_oracles comparison_state (by decide)
  simpa [comparison_state] using h

/-- C8 counterexample. A preference set whose only non-`unknown` slot is
`language` ("en"): the claim's query would be "en", but `search_recipes`
never reads the `language` (or `allergies`) slot, so the built query is
the fallback term instead. -/
theorem search_query_ignores_language_slot :
    claimed_query_terms ⟨"en", "unknown", "unknown", "unknown", [], [], "unknown", "unknown"⟩ =
      ["en"] ∧
    search_query ⟨"en", "unknown", "unknown", "unknown", [], [], "unknown", "unknown"⟩ =
      "healthy dinner" ∧
    pyJoin " " (claimed_query_terms
        ⟨"en", "unknown", "unknown", "unknown", [], [], "unknown", "unknown"⟩) ≠
      search_query ⟨"en", "unknown", "unknown", "unknown", [], [], "unknown", "unknown"⟩ := by
  refine ⟨by decide, by decide, by decide⟩

/-- C8 amended. The retrieval query is the space-joined sequence of the
non-`unknown`, non-empty values of the `cuisine`, `diet`, `dish`,
`meal_type`, `cooking_time` slots (in that order) plus all listed
ingredients, defaulting to the generic fallback term when that sequence is
empty; and the search always requests exactly the top 3 matches. -/
theorem search_query_amended (p : UserPreferences) :
    search_query p = (if amended_query_terms p = [] then "healthy dinner"
                      else pyJoin " " (amended_query_terms p)) ∧
    search_top_k = 3 := by
  have hterms : amended_query_terms p = search_query_terms p := by
    unfold amended_query_terms search_query_terms slot_value
    simp only [List.map]
    congr 1
    apply List.filter_congr
    intro a _
    exact decide_eq_decide.mpr and_comm
  refine ⟨?_, rfl⟩
  rw [hterms]
  unfold search_query
  dsimp only
  split <;> rfl

/-- Witness for the amended C8 at a concrete input: mixed known and
unknown slots plus one ingredient. -/
theorem search_query_amended_witness :
    search_query ⟨"es", "italian", "unknown", "pizza", ["basil"], ["gluten"],
        "dinner", "unknown"⟩ = "italian pizza dinner basil" := by
  have h := (search_query_amended ⟨"es", "italian", "unknown", "pizza", ["basil"],
      ["gluten"], "dinner", "unknown"⟩).1
  rw [h]
  decide

/-- C9. When the resolver oracle fails on a turn that has a (non-empty)
last user message, `analyze_recipe_request` never propagates the failure:
it returns type `dish` (with both bindings null) exactly when at least one
title was previously shown and the message is at most 5 words, and type
`new_dish` (both bindings null) otherwise. -/
theorem analyze_recipe_request_failure_fallback
    (messages : List Msg) (h : lastUserContent messages ≠ "") :
    (previously_shown_recipes messages ≠ [] →
      (pySplit (lastUserContent messages)).length ≤ 5 →
      analyze_recipe_request messages none =
        ⟨"dish", none, none, "Fallback: short message with previously shown recipes"⟩) ∧
    ((previously_shown_recipes messages = [] ∨
        5 < (pySplit (lastUserContent messages)).length) →
      analyze_recipe_request messages none =
        ⟨"new_dish", none, none, "Fallback: new dish"⟩) := by
  have hne : messages ≠ [] := by
    intro he
    exact h (by rw [he]; rfl)
  unfold analyze_recipe_request
  dsimp only
  rw [if_neg hne, if_neg h]
  constructor
  · intro h1 h2
    rw [if_pos ⟨h1, h2⟩]
  · intro hd
    rw [if_neg ?_]
    rintro ⟨hs, hw⟩
    rcases hd with hd | hd
    · exact hs hd
    · omega

/-- Witness for C9 at a concrete input: an oracle failure after a
two-recipe listing and a 2-word follow-up falls back to `dish` with null
bindings. -/
theorem analyze_recipe_request_failure_fallback_witness :
    analyze_recipe_request
        [⟨"user", "Italian dinner"⟩,
         ⟨"assistant", "1. Lasagna Bolognese\n2. Margherita Pizza"⟩,
         ⟨"user", "pies please"⟩] none =
      ⟨"dish", none, none, "Fallback: short message with previously shown recipes"⟩ :=
  (analyze_recipe_request_failure_fallback
      [⟨"user", "Italian dinner"⟩,
       ⟨"assistant", "1. Lasagna Bolognese\n2. Margherita Pizza"⟩,
       ⟨"user", "pies please"⟩] (by decide)).1 (by decide) (by decide)

/-- `number_steps` numbers the step at position `i` with `k + i + 1`. -/
theorem number_steps_get? (ds : List String) :
    ∀ (k i : Nat) (step : String), ds.get? i = some step →
      (number_steps k ds).get? i = some (toString (k + i + 1) ++ ". 🔪 " ++ step) := by
  induction ds with
  | nil =>
    intro k i step h
    cases h
  | cons d ds ih =>
    intro k i step h
    cases i with
    | zero =>
      rw [List.get?_cons_zero] at h
      cases h
      rfl
    | succ j =>
      rw [List.get?_cons_succ] at h
      have hj := ih (k + 1) j step h
      rw [number_steps, List.get?_cons_succ, hj]
      have harith : k + 1 + j + 1 = k + (j + 1) + 1 := by omega
      rw [harith]

/-- A member of the joined list occurs contiguously in the join. -/
theorem mem_pyJoin_split (sep x : String) :
    ∀ (l : List String), x ∈ l → ∃ u v, (pyJoin sep l).data = u ++ x.data ++ v := by
  intro l
  induction l with
  | nil =>
    intro h
    cases h
  | cons y ys ih =>
    intro h
    rcases List.mem_cons.mp h with h | h
    · subst h
      cases ys with
      | nil => exact ⟨[], [], by simp [pyJoin]⟩
      | cons z zs =>
        refine ⟨[], sep.data ++ (pyJoin sep (z :: zs)).data, ?_⟩
        simp [pyJoin, data_append, List.append_assoc]
    · cases ys with
      | nil => cases h
      | cons z zs =>
        obtain ⟨u, v, huv⟩ := ih h
        refine ⟨y.data ++ sep.data ++ u, v, ?_⟩
        simp [pyJoin, data_append, huv, List.append_assoc]

/-- C10. `format_recipe` is total over arbitrary recipe dicts and renders
the documented defaults: a missing title becomes "Untitled Recipe", an
empty ingredients list the literal notice, empty directions the literal
notice, each direction `i` is numbered `i + 1` (consecutively from 1),
and a blank link yields the plain (non-hyperlinked) source attribution as
the final segment. -/
theorem format_recipe_total_defaults (r : RecipeDict) :
    (r.title = none →
      ∃ rest, (format_recipe r).data = "### 🍽️ Untitled Recipe".data ++ rest) ∧
    (r.ingredients.getD [] = [] →
      ∃ u v, (format_recipe r).data = u ++ "No ingredients provided.".data ++ v) ∧
    (r.directions.getD [] = [] →
      ∃ u v, (format_recipe r).data = u ++ "No instructions provided.".data ++ v) ∧
    (∀ i step, (r.directions.getD []).get? i = some step →
      ∃ u v, (format_recipe r).data =
        u ++ (toString (i + 1) ++ ". 🔪 " ++ step).data ++ v) ∧
    (pyTrim (r.link.getD "") = "" →
      ∃ u, (format_recipe r).data =
        u ++ ("\n\n📖 *Source: " ++ r.source.getD "Unknown Source" ++ "*").data) := by
  refine ⟨?_, ?_, ?_, ?_, ?_⟩
  · intro h
    refine ⟨("\n\n**Ingredients:**\n" ++ formatted_ingredients r ++
        "\n\n**Directions:**\n" ++ formatted_directions r ++
        source_attribution r).data, ?_⟩
    have hdata : "### 🍽️ Untitled Recipe".data =
        "### 🍽️ ".data ++ "Untitled Recipe".data := by decide
    simp [format_recipe, h, hdata, data_append, List.append_assoc]
  · intro h
    have hfi : formatted_ingredients r = "No ingredients provided." := by
      simp [formatted_ingredients, h]
    refine ⟨("### 🍽️ " ++ r.title.getD "Untitled Recipe" ++
        "\n\n**Ingredients:**\n").data,
      ("\n\n**Directions:**\n" ++ formatted_directions r ++
        source_attribution r).data, ?_⟩
    simp [format_recipe, hfi, data_append, List.append_assoc]
  · intro h
    have hfd : formatted_directions r = "No instructions provided." := by
      simp [formatted_directions, h]
    refine ⟨("### 🍽️ " ++ r.title.getD "Untitled Recipe" ++
        "\n\n**Ingredients:**\n" ++ formatted_ingredients r ++
        "\n\n**Directions:**\n").data,
      (source_attribution r).data, ?_⟩
    simp [format_recipe, hfd, data_append, List.append_assoc]
  · intro i step h
    have hne : (r.directions.getD []).isEmpty = false := by
      cases hd : r.directions.getD [] with
      | nil => rw [hd] at h; cases h
      | cons a l => rfl
    have hstep := number_steps_get? (r.directions.getD []) 0 i step h
    have hmem : (toString (0 + i + 1) ++ ". 🔪 " ++ step) ∈
        number_steps 0 (r.directions.getD []) := List.get?_mem hstep
    obtain ⟨u, v, huv⟩ := mem_pyJoin_split "\n" _ _ hmem
    have hfd : formatted_directions r = pyJoin "\n" (number_steps 0 (r.directions.getD [])) := by
      simp [formatted_directions, hne]
    refine ⟨("### 🍽️ " ++ r.title.getD "Untitled Recipe" ++
        "\n\n**Ingredients:**\n" ++ formatted_ingredients r ++
        "\n\n**Directions:**\n").data ++ u,
      v ++ (source_attribution r).data, ?_⟩
    have harith : (0 : Nat) + i + 1 = i + 1 := by omega
    rw [harith] at huv
    simp [format_recipe, hfd, data_append, huv, List.append_assoc]
  · intro h
    have hsa : source_attribution r =
        "\n\n📖 *Source: " ++ r.source.getD "Unknown Source" ++ "*" := by
      simp [source_attribution, h]
    refine ⟨("### 🍽️ " ++ r.title.getD "Untitled Recipe" ++
        "\n\n**Ingredients:**\n" ++ formatted_ingredients r ++
        "\n\n**Directions:**\n" ++ formatted_directions r).data, ?_⟩
    simp [format_recipe, hsa, data_append, List.append_assoc]

/-- Witness for C10 at a concrete input: a recipe dict with no title, no
ingredients key, two directions and a blank link. -/
theorem format_recipe_total_defaults_witness :
    (∃ rest, (format_recipe
        { directions := some ["mix", "bake"], link := some "  " }).data =
      "### 🍽️ Untitled Recipe".data ++ rest) ∧
    (∃ u v, (format_recipe
        { directions := some ["mix", "bake"], link := some "  " }).data =
      u ++ (toString (2 : Nat) ++ ". 🔪 " ++ "bake").data ++ v) ∧
    (∃ u, (format_recipe
        { directions := some ["mix", "bake"], link := some "  " }).data =
      u ++ ("\n\n📖 *Source: " ++ "Unknown Source" ++ "*").data) := by
  have h := format_recipe_total_defaults { directions := some ["mix", "bake"], link := some "  " }
  refine ⟨h.1 rfl, ?_, ?_⟩
  · have h2 := h.2.2.2.1 1 "bake" (by decide)
    simpa using h2
  · have h3 := h.2.2.2.2 (by decide)
    simpa using h3

end TastyAI
